import Mathlib

/-!
Verification development for the knex-types generator (src/main.ts).

The TypeScript source is shallowly embedded below: pure string
manipulation becomes Lean functions over `String`/`List Char`, the
stateful emission becomes a function producing the ordered list of
strings written to the sink, catalog queries become fields of a
`Catalog` structure returning `Except` values, and the try/finally
resource discipline becomes an event trace.
-/

namespace KnexTypes

/-! ## Character-list string primitives

JS `String.prototype.startsWith` / `endsWith`, modelled over the
character lists underlying Lean strings so that everything reduces
well inside the kernel. -/

/-- `charsStart pat l` is true when `pat` is an initial segment of `l`. -/
def charsStart : List Char → List Char → Bool
  | [], _ => true
  | _ :: _, [] => false
  | a :: as, b :: bs => a == b && charsStart as bs

/-- JS `s.startsWith(pat)`. -/
def strStartsWith (s pat : String) : Bool :=
  charsStart pat.data s.data

/-- JS `s.endsWith(pat)`. -/
def strEndsWith (s pat : String) : Bool :=
  charsStart pat.data.reverse s.data.reverse

/-- True when `sub` occurs somewhere inside `l`. -/
def containsSubList (sub : List Char) : List Char → Bool
  | [] => sub.isEmpty
  | c :: cs => charsStart sub (c :: cs) || containsSubList sub cs

/-- True when the string `sub` occurs somewhere inside `s`. -/
def containsSub (s sub : String) : Bool :=
  containsSubList sub.data s.data

/-- Lookup in a JS object literal or `Map`: later entries for the same
key overwrite earlier ones, and a missing key gives `none`. -/
def jsGet (m : List (String × String)) (k : String) : Option String :=
  m.foldl (fun acc p => if p.1 = k then some p.2 else acc) none

/-! ## lodash `camelCase` / `upperFirst`

Model of the two lodash helpers the source imports.  Word splitting
covers the ASCII snake_case and lowercase identifiers that occur in
database catalogs: words break at non-alphanumeric separators, at a
lowercase-to-uppercase transition and at letter/digit transitions.
(The lodash rule for uppercase acronym runs and its unicode deburring
are not modelled; catalog identifiers never exercise them.)
lodash converts `undefined` to the empty string, which callers below
model with `Option.getD ""`. -/

/-- Word boundary between two adjacent alphanumeric characters. -/
def wordBreak (p c : Char) : Bool :=
  (p.isLower && c.isUpper) || (p.isAlpha && c.isDigit) || (p.isDigit && c.isAlpha)

/-- Accumulating word splitter; `acc` holds the current word reversed. -/
def wordsAux : List Char → List Char → List (List Char)
  | [], acc => if acc.isEmpty then [] else [acc.reverse]
  | c :: cs, acc =>
    if c.isAlphanum then
      match acc with
      | [] => wordsAux cs [c]
      | p :: _ =>
        if wordBreak p c then acc.reverse :: wordsAux cs [c]
        else wordsAux cs (c :: acc)
    else
      if acc.isEmpty then wordsAux cs []
      else acc.reverse :: wordsAux cs []

/-- Split an identifier into words, lodash style. -/
def splitWords (s : String) : List (List Char) :=
  wordsAux s.data []

/-- Lowercase a word and uppercase its first character. -/
def capitalizeLower (w : List Char) : List Char :=
  match w.map Char.toLower with
  | [] => []
  | c :: cs => c.toUpper :: cs

/-- lodash `camelCase`: first word lowercased, later words capitalized. -/
def camelCase (s : String) : String :=
  match splitWords s with
  | [] => ""
  | w :: ws => String.mk (w.map Char.toLower ++ (ws.map capitalizeLower).flatten)

/-- lodash `upperFirst`: uppercase the first character only. -/
def upperFirst (s : String) : String :=
  match s.data with
  | [] => ""
  | c :: cs => String.mk (c.toUpper :: cs)

/-! ## `sanitize` (src/main.ts lines 415-417) -/

/-- First-character class of the identifier regex: `[a-zA-Z$_]`. -/
def identStart (c : Char) : Bool :=
  c.isAlpha || c = '$' || c = '_'

/-- Later-character class of the identifier regex: `[a-zA-Z$_0-9]`. -/
def identRest (c : Char) : Bool :=
  identStart c || c.isDigit

/-- The test `/^[a-zA-Z$_][a-zA-Z$_0-9]*$/.test(name)`. -/
def validIdent (s : String) : Bool :=
  match s.data with
  | [] => false
  | c :: cs => identStart c && cs.all identRest

/-- Lowercase hex digit for a value below 16. -/
def hexDigit (n : Nat) : Char :=
  if n < 10 then Char.ofNat ('0'.toNat + n) else Char.ofNat ('a'.toNat + n - 10)

/-- JSON escape of one character, as produced by `JSON.stringify`. -/
def escChar (c : Char) : List Char :=
  if c = '"' then ['\\', '"']
  else if c = '\\' then ['\\', '\\']
  else if c = '\n' then ['\\', 'n']
  else if c = '\t' then ['\\', 't']
  else if c = '\r' then ['\\', 'r']
  else if c = '\x08' then ['\\', 'b']
  else if c = '\x0c' then ['\\', 'f']
  else if c.toNat < 32 then ['\\', 'u', '0', '0', hexDigit (c.toNat / 16), hexDigit (c.toNat % 16)]
  else [c]

/-- JSON escape of a character list. -/
def jsonEscape : List Char → List Char
  | [] => []
  | c :: cs => escChar c ++ jsonEscape cs

/-- `JSON.stringify` applied to a string value. -/
def jsonStringify (s : String) : String :=
  String.mk ('"' :: (jsonEscape s.data ++ ['"']))

/-- src/main.ts `sanitize`: quote the property name unless it is a
valid bare identifier. -/
def sanitize (name : String) : String :=
  if validIdent name then name else jsonStringify name

/-! ## `getType` (src/main.ts lines 349-407)

The `switch` statement, with each fallthrough group rendered as a
membership test on the list of its case labels, in source order. -/

/-- Case labels of the `switch` group returning `"string"`. -/
def stringUdts : List String :=
  ["text", "citext", "money", "numeric", "int8", "char", "character", "bpchar",
   "varchar", "time", "tsquery", "tsvector", "uuid", "xml", "cidr", "inet", "macaddr"]

/-- Case labels of the `switch` group returning `"number"`. -/
def numberUdts : List String :=
  ["smallint", "integer", "int", "int2", "int4", "real", "float", "float4", "float8"]

/-- Case labels of the `switch` group returning `"Date"`. -/
def dateUdts : List String :=
  ["date", "timestamp", "timestamptz"]

/-- Every case label handled before the `default` branch. -/
def knownUdts : List String :=
  "bool" :: stringUdts ++ numberUdts ++ dateUdts ++ ["json", "jsonb", "bytea", "interval"]

/-- src/main.ts `getType`.  A JS falsy `defaultValue` (absent or empty)
skips both narrowing tests; an empty string fails both `startsWith`
tests anyway, so `none` versus `some ""` agree. -/
def getType (udt : String) (customTypes : List (String × String))
    (defaultValue : Option String) : String :=
  if udt = "bool" then "boolean"
  else if udt ∈ stringUdts then "string"
  else if udt ∈ numberUdts then "number"
  else if udt ∈ dateUdts then "Date"
  else if udt = "json" ∨ udt = "jsonb" then
    match defaultValue with
    | some d =>
      if strStartsWith d "\x27\x7b" then "Record<string, unknown>"
      else if strStartsWith d "\x27[" then "unknown[]"
      else "unknown"
    | none => "unknown"
  else if udt = "bytea" then "Buffer"
  else if udt = "interval" then "PostgresInterval"
  else (jsGet customTypes udt).getD "unknown"

/-! ## Catalog data model (src/main.ts lines 320-347 and query shapes) -/

/-- One row of the `pg_type`/`pg_enum` join (lines 95-100). -/
structure EnumRow where
  key : String
  value : String

/-- One row of the `information_schema.columns` query (lines 128-145). -/
structure ColumnMeta where
  schema : String
  table : String
  column : String
  nullable : Bool
  default : Option String
  type : String
  udt : String

/-- One row of the `table_constraints` query (lines 151-159). -/
structure KC where
  constraint_name : String
  constraint_type : String

/-- One row of the `key_column_usage` query (lines 161-174). -/
structure KeyUsageRow where
  schema : String
  table : String
  column : String
  constraint_name : String

/-- One row of the `constraint_column_usage` query (lines 176-188). -/
structure CURow where
  schema : String
  table : String
  column : String
  constraint_name : String
  deriving DecidableEq

/-- The `Key` record built at lines 190-206.  `constraint_type` is the
optional result of `keyConstraints.find(...)?.constraint_type`,
`refSchema` the optional matching referenced-column-usage row. -/
structure Key where
  schema : String
  table : String
  column : String
  constraint_name : String
  constraint_type : Option String
  refSchema : Option CURow

/-- One element of `columnsWithKeyInfo` (lines 209-237): a column row
spread together with its derived key flags. -/
structure AnnotatedColumn where
  schema : String
  table : String
  column : String
  nullable : Bool
  default : Option String
  type : String
  udt : String
  is_foreign_key : Bool
  is_unique : Bool
  is_primary_key : Bool
  ref_schema : Option CURow

/-- The `schema` and `exclude` options accept a comma separated string
or an explicit list. -/
inductive StrOrList where
  | str (s : String)
  | list (l : List String)

/-- The `Options` record (lines 9-54).  The output sink is the event
trace produced by `updateTypes` and is not a field here.  Source field
names `prefix` and `suffix` are rendered as `headerText`/`footerText`. -/
structure Options where
  overrides : List (String × String)
  headerText : Option String
  footerText : Option String
  schema : Option StrOrList
  exclude : Option StrOrList

/-- Read-only catalog snapshot: each field models one kind of catalog
query, returning either its ordered rows or a query error. -/
structure Catalog where
  enums : Except String (List EnumRow)
  columns : List String → List String → List String → Except String (List ColumnMeta)
  keyConstraints : String → Except String (List KC)
  keyUsage : String → List String → Except String (List KeyUsageRow)
  columnUsage : List String → Except String (List CURow)

/-- Events observable on the external resources: a sink write, the
final `output.end()` and the final `db.destroy()`. -/
inductive Ev where
  | write (s : String)
  | endSink
  | destroy

/-! ## Option resolution and schema filter (lines 71-86) -/

/-- `typeof v === "string" ? v.split(",").map(trim) : v ?? dflt`. -/
def resolveList (v : Option StrOrList) (dflt : List String) : List String :=
  match v with
  | some (.str s) => (s.splitOn ",").map String.trim
  | some (.list l) => l
  | none => dflt

/-- The `schema.reduce` at lines 76-80: `acc[+s.startsWith("!")].push(s)`.
Entries are pushed unchanged, in particular the `"!"` is kept. -/
def partitionSchemas (schema : List String) : List String × List String :=
  schema.foldl
    (fun acc s =>
      if strStartsWith s "!" then (acc.1, acc.2 ++ [s]) else (acc.1 ++ [s], acc.2))
    ([], [])

/-- Modelled from the spec: the catalog column query applies
`whereIn(table_schema, include)`, `whereNotIn(table_schema, exclude)`
and `whereNotIn(table_name, excludeTables)`; query execution itself is
an external collaborator, so its row filter is modelled here as the
standard semantics of those clauses. -/
def passesFilter (inc exc excT : List String) (c : ColumnMeta) : Bool :=
  decide (c.schema ∈ inc) && !(decide (c.schema ∈ exc)) && !(decide (c.table ∈ excT))

/-! ## Constraint aggregation (lines 147-237) -/

/-- The per-schema loop of lines 149-207, issuing the three
constraint queries in order and building a `Key` per key-usage row. -/
def fetchKeys (cat : Catalog) : List String → Except String (List Key)
  | [] => .ok []
  | s :: rest => do
    let kcs ← cat.keyConstraints s
    let names := kcs.map KC.constraint_name
    let ku ← cat.keyUsage s names
    let cu ← cat.columnUsage names
    let newKeys := ku.map fun k =>
      { schema := k.schema
        table := k.table
        column := k.column
        constraint_name := k.constraint_name
        constraint_type :=
          (kcs.find? fun c => c.constraint_name == k.constraint_name).map KC.constraint_type
        refSchema := cu.find? fun c => c.constraint_name == k.constraint_name : Key }
    let restKeys ← fetchKeys cat rest
    return newKeys ++ restKeys

/-- Lines 209-237: derive the key-role flags of one column by scanning
the flat key list.  As in the source, matching ignores the schema. -/
def annotate (keys : List Key) (c : ColumnMeta) : AnnotatedColumn :=
  { schema := c.schema
    table := c.table
    column := c.column
    nullable := c.nullable
    default := c.default
    type := c.type
    udt := c.udt
    is_foreign_key := keys.any fun k =>
      k.table == c.table && k.column == c.column && k.constraint_type == some "FOREIGN KEY"
    is_unique := keys.any fun k =>
      k.table == c.table && k.column == c.column && k.constraint_type == some "UNIQUE"
    is_primary_key := keys.any fun k =>
      k.table == c.table && k.column == c.column && k.constraint_type == some "PRIMARY KEY"
    ref_schema :=
      (keys.find? fun k =>
        k.table == c.table && k.column == c.column && k.constraint_type == some "FOREIGN KEY").bind
        Key.refSchema }

/-! ## Naming and emission -/

/-- The recurring idiom `overrides[key] ?? upperFirst(camelCase(key))`. -/
def resolveName (ov : List (String × String)) (key : String) : String :=
  (jsGet ov key).getD (upperFirst (camelCase key))

/-- Lines 103-118: the enum section, written row by row with the
open/close boundary tests against the previous and next row's key. -/
def emitEnums (ov : List (String × String)) : Option EnumRow → List EnumRow → List String
  | _, [] => []
  | prev, x :: rest =>
    (match prev with
      | some p =>
        if p.key = x.key then []
        else ["export const " ++ resolveName ov x.key ++ " = \x7b\n"]
      | none => ["export const " ++ resolveName ov x.key ++ " = \x7b\n"]) ++
    ("  \"" ++ x.value ++ "\": \"" ++ x.value ++ "\",\n") ::
    ((match rest with
      | y :: _ =>
        if y.key = x.key then []
        else ["\x7d;\n",
          "export type " ++ resolveName ov x.key ++ " = keyof typeof " ++ resolveName ov x.key ++ ";\n\n"]
      | [] => ["\x7d;\n",
          "export type " ++ resolveName ov x.key ++ " = keyof typeof " ++ resolveName ov x.key ++ ";\n\n"]) ++
    emitEnums ov (some x) rest)

/-- JS `Set` construction: deduplicate keeping first occurrences. -/
def insertionDedup : List String → List String
  | [] => []
  | x :: rest => x :: insertionDedup (rest.filter fun y => !(y == x))
termination_by l => l.length
decreasing_by
  simp only [List.length_cons]
  exact Nat.lt_succ_of_le (List.length_filter_le _ _)

/-- Line 243-244: the schema-qualified table identity string. -/
def tableId (x : AnnotatedColumn) : String :=
  (if x.schema = "public" then "" else x.schema ++ ".") ++ x.table

/-- Lines 240-258: the `Table` enum and the `Tables` map sections. -/
def tableSection (ov : List (String × String)) (cols : List AnnotatedColumn) : List String :=
  let tableSet := insertionDedup (cols.map tableId)
  ["export enum Table \x7b\n"] ++
  tableSet.map (fun value => "  " ++ resolveName ov value ++ " = \"" ++ value ++ "\",\n") ++
  ["\x7d\n\n"] ++
  ["export type Tables = \x7b\n"] ++
  tableSet.map (fun key => "  \"" ++ key ++ "\": " ++ resolveName ov key ++ ",\n") ++
  ["\x7d;\n\n"]

/-- Lines 262-272: `${schemaName}${tableName}`, the record type name
and also the self-brand tag. -/
def recordTypeName (ov : List (String × String)) (x : AnnotatedColumn) : String :=
  (if x.schema = "public" then "" else upperFirst (camelCase x.schema)) ++ resolveName ov x.table

/-- Lines 275-278: the initial `let type`, wrapping array element
types (the udt with its leading `_` marker stripped) in `[]`. -/
def baseType (em : List (String × String)) (x : AnnotatedColumn) : String :=
  if x.type = "ARRAY" then getType (x.udt.drop 1) em x.default ++ "[]"
  else getType x.udt em x.default

/-- Lines 275-296: base type, then the branding if/else-if, then the
nullable union.  The source also computes a `refSchemaName` in the
foreign branch; it is dead code there (the brand uses only the
referenced table name) and is omitted. -/
def fieldType (ov em : List (String × String)) (x : AnnotatedColumn) : String :=
  let base := baseType em x
  let branded :=
    if x.column == "id" && (x.is_unique || x.is_primary_key) then
      base ++ " & \x7b _brand: \"" ++ recordTypeName ov x ++ "\" \x7d"
    else if x.is_foreign_key && strEndsWith x.column "id" then
      base ++ " & \x7b __flavor?: \"" ++
        upperFirst (camelCase ((x.ref_schema.map CURow.table).getD "")) ++ "Id\" \x7d"
    else base
  if x.nullable then branded ++ " | null" else branded

/-- Line 298: one field line. -/
def fieldLine (ov em : List (String × String)) (x : AnnotatedColumn) : String :=
  "  " ++ sanitize x.column ++ ": " ++ fieldType ov em x ++ ";\n"

/-- Line 272: the record open line. -/
def openLine (ov : List (String × String)) (x : AnnotatedColumn) : String :=
  "export type " ++ recordTypeName ov x ++ " = \x7b\n"

/-- Lines 300-307: the record close line. -/
def closeLine : String := "\x7d;\n\n"

/-- Lines 300-307: the close test against the next row
(`columnsWithKeyInfo[i + 1]`), comparing only its `table`. -/
def closeOut (x : AnnotatedColumn) : List AnnotatedColumn → List String
  | y :: _ => if y.table = x.table then [] else [closeLine]
  | [] => [closeLine]

/-- Lines 261-308: the record-type section.  `prev` is the previous
row (`columnsWithKeyInfo[i - 1]`); the open test compares only the
previous row's `table`, the close test only the next row's `table`. -/
def emitRecords (ov em : List (String × String)) :
    Option AnnotatedColumn → List AnnotatedColumn → List String
  | _, [] => []
  | prev, x :: rest =>
    (match prev with
      | some p => if p.table = x.table then [] else [openLine ov x]
      | none => [openLine ov x]) ++
    fieldLine ov em x :: (closeOut x rest ++ emitRecords ov em (some x) rest)

/-! ## The full run (lines 59-318) -/

/-- Lines 66-69: the banner written before anything else. -/
def bannerLines : List String :=
  ["// The TypeScript definitions below are automatically generated.\n",
   "// Do not touch them, or risk, your modifications being lost.\n\n"]

/-- Lines 88-91: `if (options.prefix)` - a JS truthiness test, so the
empty string also skips the write. -/
def headerOut (h : Option String) : List String :=
  match h with
  | some p => if p = "" then [] else [p, "\n\n"]
  | none => []

/-- Lines 310-313: `if (options.suffix)`. -/
def footerOut (f : Option String) : List String :=
  match f with
  | some s => if s = "" then [] else [s, "\n"]
  | none => []

/-- The `try` block (lines 93-313): every catalog query in source
order, the writes it performs, and the first error if one aborts it. -/
def runBody (cat : Catalog) (ov : List (String × String))
    (inc exc excT : List String) (fo : Option String) : List String × Option String :=
  match cat.enums with
  | .error e => ([], some e)
  | .ok enums =>
    let eLines := emitEnums ov none enums
    let em := enums.map fun x => (x.key, resolveName ov x.key)
    match cat.columns inc exc excT with
    | .error e => (eLines, some e)
    | .ok cols =>
      match fetchKeys cat inc with
      | .error e => (eLines, some e)
      | .ok keys =>
        let annotated := cols.map (annotate keys)
        (eLines ++ tableSection ov annotated ++
          emitRecords ov em none annotated ++ footerOut fo, none)

/-- `updateTypes` (lines 59-318): the full ordered event trace on the
sink and connection, plus the error the run rejects with, if any.
The banner and header writes precede the `try`; the `finally` appends
`output.end()` and `db.destroy()` on every path. -/
def updateTypes (cat : Catalog) (opts : Options) : List Ev × Option String :=
  let schemaList := resolveList opts.schema ["public"]
  let incExc := partitionSchemas schemaList
  let excT := resolveList opts.exclude []
  let r := runBody cat opts.overrides incExc.1 incExc.2 excT opts.footerText
  ((bannerLines ++ headerOut opts.headerText ++ r.1).map Ev.write ++ [Ev.endSink, Ev.destroy], r.2)

/-! ## Spec-side characterizations

Definitions following the specification's wording, to be compared with
the source-embedded functions above. -/

/-- Spec wording: self-branding condition,
`column == "id" and (isUnique or isPrimaryKey)`. -/
def selfBranded (x : AnnotatedColumn) : Bool :=
  x.column == "id" && (x.is_unique || x.is_primary_key)

/-- Spec wording: `isForeignKey and column ends with "id"`. -/
def foreignBrandEligible (x : AnnotatedColumn) : Bool :=
  x.is_foreign_key && strEndsWith x.column "id"

/-- Foreign branding as the code actually applies it: only on the
`else` branch, so never together with self-branding. -/
def foreignBranded (x : AnnotatedColumn) : Bool :=
  !selfBranded x && foreignBrandEligible x

/-- The self-brand intersection suffix. -/
def selfTag (ov : List (String × String)) (x : AnnotatedColumn) : String :=
  " & \x7b _brand: \"" ++ recordTypeName ov x ++ "\" \x7d"

/-- The foreign-brand intersection suffix. -/
def foreignTag (x : AnnotatedColumn) : String :=
  " & \x7b __flavor?: \"" ++
    upperFirst (camelCase ((x.ref_schema.map CURow.table).getD "")) ++ "Id\" \x7d"

/-- The branding suffix a column receives: the self tag takes
precedence, the foreign tag applies only otherwise. -/
def brandSuffix (ov : List (String × String)) (x : AnnotatedColumn) : String :=
  if selfBranded x then selfTag ov x
  else if foreignBranded x then foreignTag x
  else ""

/-- The trailing nullable union. -/
def nullSuffix (x : AnnotatedColumn) : String :=
  if x.nullable then " | null" else ""

/-- The maximal leading run of rows whose `table` equals `t`. -/
def takeRun (t : String) : List AnnotatedColumn → List AnnotatedColumn
  | [] => []
  | x :: rest => if x.table = t then x :: takeRun t rest else []

/-- What remains after the maximal leading run of table `t`. -/
def dropRun (t : String) : List AnnotatedColumn → List AnnotatedColumn
  | [] => []
  | x :: rest => if x.table = t then dropRun t rest else x :: rest

theorem dropRun_length_le (t : String) : ∀ l : List AnnotatedColumn,
    (dropRun t l).length ≤ l.length
  | [] => Nat.le_refl _
  | x :: rest => by
    rw [dropRun]
    split
    · exact Nat.le_succ_of_le (dropRun_length_le t rest)
    · exact Nat.le_refl _

/-- Partition an ordered column sequence into its maximal contiguous
runs of equal `table` name. -/
def splitRuns : List AnnotatedColumn → List (List AnnotatedColumn)
  | [] => []
  | x :: rest => (x :: takeRun x.table rest) :: splitRuns (dropRun x.table rest)
termination_by l => l.length
decreasing_by
  simp only [List.length_cons]
  exact Nat.lt_succ_of_le (dropRun_length_le _ _)

/-- Render one contiguous run as a complete record declaration block:
its open line, all its field lines, its close line. -/
def blockRender (ov em : List (String × String)) (g : List AnnotatedColumn) : List String :=
  match g with
  | [] => []
  | x :: _ => openLine ov x :: (g.map (fieldLine ov em) ++ [closeLine])

/-- Number of positions after the first whose `table` differs from the
previous row's. -/
def countChanges (t : String) : List AnnotatedColumn → Nat
  | [] => 0
  | x :: rest => (if x.table = t then 0 else 1) + countChanges x.table rest

/-- Number of rows at which the emitter opens a declaration: the first
row plus every row whose `table` differs from its predecessor. -/
def boundaryCount : List AnnotatedColumn → Nat
  | [] => 0
  | x :: rest => 1 + countChanges x.table rest

/-- Event classifier for `output.end()`. -/
def isEndEv : Ev → Bool
  | .endSink => true
  | _ => false

/-- Event classifier for `db.destroy()`. -/
def isDestroyEv : Ev → Bool
  | .destroy => true
  | _ => false

/-! ## Concrete inputs used by counterexamples and witnesses -/

/-- A column of table `t` in schema `a`. -/
def caA : AnnotatedColumn :=
  { schema := "a", table := "t", column := "x", nullable := false, default := none,
    type := "text", udt := "text", is_foreign_key := false, is_unique := false,
    is_primary_key := false, ref_schema := none }

/-- A column of the same-named table `t` in the next schema `b`. -/
def caB : AnnotatedColumn :=
  { caA with schema := "b", column := "y" }

/-- A column satisfying the self-branding and the foreign-branding
conditions at once: named `id`, unique, and a foreign key. -/
def cBoth : AnnotatedColumn :=
  { schema := "public", table := "user", column := "id", nullable := false,
    default := none, type := "integer", udt := "int4", is_foreign_key := true,
    is_unique := true, is_primary_key := true,
    ref_schema := some { schema := "public", table := "group", column := "id",
                         constraint_name := "fk" } }

/-- A foreign-key column whose referenced-column metadata is absent. -/
def cNoRef : AnnotatedColumn :=
  { schema := "public", table := "post", column := "author_id", nullable := false,
    default := none, type := "integer", udt := "int4", is_foreign_key := true,
    is_unique := false, is_primary_key := false, ref_schema := none }

/-- Scenario D: nullable array-of-text column. -/
def cArrText : AnnotatedColumn :=
  { schema := "public", table := "post", column := "tags", nullable := true,
    default := none, type := "ARRAY", udt := "_text", is_foreign_key := false,
    is_unique := false, is_primary_key := false, ref_schema := none }

/-- Scenario C: `public.post.author_id int4 not-null` referencing
`public.user.id`. -/
def cAuthor : AnnotatedColumn :=
  { schema := "public", table := "post", column := "author_id", nullable := false,
    default := none, type := "integer", udt := "int4", is_foreign_key := true,
    is_unique := false, is_primary_key := false,
    ref_schema := some { schema := "public", table := "user", column := "id",
                         constraint_name := "post_author_id_fkey" } }

/-- A column row in the `public` schema. -/
def cPub : ColumnMeta :=
  { schema := "public", table := "user", column := "id", nullable := false,
    default := none, type := "integer", udt := "int4" }

/-- A catalog snapshot whose queries all succeed with no rows. -/
def emptyCatalog : Catalog :=
  { enums := .ok []
    columns := fun _ _ _ => .ok []
    keyConstraints := fun _ => .ok []
    keyUsage := fun _ _ => .ok []
    columnUsage := fun _ => .ok [] }

/-- Options with every field unset. -/
def defaultOptions : Options :=
  { overrides := [], headerText := none, footerText := none,
    schema := none, exclude := none }

/-- Options carrying a header text. -/
def headerOptions : Options :=
  { defaultOptions with headerText := some "import x;" }

/-! ## Helper lemmas -/

/-- The branding and nullability steps of `fieldType`, decomposed into
the independent suffix functions. -/
theorem fieldType_decomposed (ov em : List (String × String)) (x : AnnotatedColumn) :
    fieldType ov em x = baseType em x ++ brandSuffix ov x ++ nullSuffix x := by
  simp only [fieldType, brandSuffix, nullSuffix, foreignBranded, selfBranded,
    foreignBrandEligible, selfTag, foreignTag]
  by_cases h1 : (x.column == "id" && (x.is_unique || x.is_primary_key)) = true
  · by_cases h3 : x.nullable = true <;>
      simp [h1, h3, String.append_assoc, String.append_empty]
  · by_cases h2 : (x.is_foreign_key && strEndsWith x.column "id") = true <;>
      by_cases h3 : x.nullable = true <;>
        simp [h1, h2, h3, String.append_assoc, String.append_empty]

theorem countP_map_write (p : Ev → Bool) (hp : ∀ s, p (Ev.write s) = false) :
    ∀ l : List String, (l.map Ev.write).countP p = 0
  | [] => rfl
  | x :: xs => by simp [List.countP_cons, hp, countP_map_write p hp xs]

theorem partitionSchemas_foldl (l : List String) : ∀ a b : List String,
    l.foldl
      (fun acc s =>
        if strStartsWith s "!" then (acc.1, acc.2 ++ [s]) else (acc.1 ++ [s], acc.2))
      (a, b) =
    (a ++ l.filter (fun s => !strStartsWith s "!"),
     b ++ l.filter (fun s => strStartsWith s "!")) := by
  induction l with
  | nil => intro a b; simp
  | cons x xs ih =>
    intro a b
    by_cases h : strStartsWith x "!" = true <;>
      simp [List.foldl_cons, h, ih, List.filter_cons, List.append_assoc]

theorem getType_default (u : String) (m : List (String × String)) (d : Option String)
    (h : u ∉ knownUdts) : getType u m d = (jsGet m u).getD "unknown" := by
  have h0 : ¬u = "bool" := fun e => h (by simp [knownUdts, e])
  have h1 : ¬u ∈ stringUdts := fun e => h (by simp [knownUdts, e])
  have h2 : ¬u ∈ numberUdts := fun e => h (by simp [knownUdts, e])
  have h3 : ¬u ∈ dateUdts := fun e => h (by simp [knownUdts, e])
  have h4 : ¬(u = "json" ∨ u = "jsonb") := by
    rintro (e | e) <;> exact h (by simp [knownUdts, e])
  have h5 : ¬u = "bytea" := fun e => h (by simp [knownUdts, e])
  have h6 : ¬u = "interval" := fun e => h (by simp [knownUdts, e])
  simp [getType, h0, h1, h2, h3, h4, h5, h6]

theorem escChar_ne_nil (c : Char) : escChar c ≠ [] := by
  unfold escChar
  repeat' split
  all_goals simp

theorem length_le_jsonEscape : ∀ l : List Char, l.length ≤ (jsonEscape l).length
  | [] => Nat.le_refl _
  | c :: cs => by
    have h1 : 1 ≤ (escChar c).length := List.length_pos.2 (escChar_ne_nil c)
    have h2 := length_le_jsonEscape cs
    simp only [jsonEscape, List.length_append, List.length_cons]
    omega

theorem jsonStringify_ne_self (s : String) : ¬jsonStringify s = s := by
  intro h
  have hd : (jsonStringify s).data = s.data := congrArg String.data h
  have hlen : ('"' :: (jsonEscape s.data ++ ['"'])).length = s.data.length :=
    congrArg List.length hd
  have hle := length_le_jsonEscape s.data
  simp only [List.length_cons, List.length_append] at hlen
  omega

@[simp] theorem splitRuns_nil : splitRuns [] = [] := by
  rw [splitRuns]

theorem splitRuns_cons (x : AnnotatedColumn) (rest : List AnnotatedColumn) :
    splitRuns (x :: rest) =
      (x :: takeRun x.table rest) :: splitRuns (dropRun x.table rest) := by
  rw [splitRuns]

theorem emitRecords_none_cons (ov em : List (String × String)) (x : AnnotatedColumn)
    (rest : List AnnotatedColumn) :
    emitRecords ov em none (x :: rest) =
      openLine ov x ::
        fieldLine ov em x :: (closeOut x rest ++ emitRecords ov em (some x) rest) := rfl

theorem emitRecords_some_cons_same (ov em : List (String × String)) (p x : AnnotatedColumn)
    (rest : List AnnotatedColumn) (h : p.table = x.table) :
    emitRecords ov em (some p) (x :: rest) =
      fieldLine ov em x :: (closeOut x rest ++ emitRecords ov em (some x) rest) := by
  simp only [emitRecords, if_pos h, List.nil_append]

/-- A boundary in the previous row resets `emitRecords` to the fresh
state: only the open-line test looks at `prev`. -/
theorem emitRecords_restart (ov em : List (String × String)) (p x : AnnotatedColumn)
    (rest : List AnnotatedColumn) (h : ¬p.table = x.table) :
    emitRecords ov em (some p) (x :: rest) = emitRecords ov em none (x :: rest) := by
  simp only [emitRecords, if_neg h]

/-- The record section is the concatenation of one complete block per
maximal run of equal table name.  The second conjunct describes the
emitter in the middle of a block: the remaining field lines of the
current run, its close line, then the remaining blocks. -/
theorem emitRecords_grouped (ov em : List (String × String)) :
    ∀ cols : List AnnotatedColumn,
      emitRecords ov em none cols =
        ((splitRuns cols).map (blockRender ov em)).flatten ∧
      ∀ (p q : AnnotatedColumn) (qs : List AnnotatedColumn),
        cols = q :: qs → p.table = q.table →
        emitRecords ov em (some p) cols =
          (q :: takeRun q.table qs).map (fieldLine ov em) ++
            closeLine :: ((splitRuns (dropRun q.table qs)).map (blockRender ov em)).flatten := by
  intro cols
  induction cols with
  | nil =>
    refine ⟨by rw [splitRuns_nil]; rfl, ?_⟩
    intro p q qs h
    exact absurd h.symm (List.cons_ne_nil q qs)
  | cons x rest ih =>
    cases rest with
    | nil =>
      constructor
      · rw [splitRuns_cons]
        simp [emitRecords_none_cons, emitRecords, closeOut, takeRun, dropRun, blockRender]
      · intro p q qs heq hpq
        injection heq with hq hqs
        subst hq; subst hqs
        rw [emitRecords_some_cons_same ov em p x [] hpq]
        simp [emitRecords, closeOut, takeRun, dropRun, blockRender]
    | cons y rest2 =>
      by_cases hy : y.table = x.table
      · have hot := ih.2 x y rest2 rfl hy.symm
        rw [hy] at hot
        constructor
        · rw [emitRecords_none_cons, closeOut, if_pos hy, splitRuns_cons,
            takeRun, if_pos hy, dropRun, if_pos hy, hot]
          simp [blockRender]
        · intro p q qs heq hpq
          injection heq with hq hqs
          subst hq; subst hqs
          rw [emitRecords_some_cons_same ov em p x (y :: rest2) hpq,
            closeOut, if_pos hy, takeRun, if_pos hy, dropRun, if_pos hy, hot]
          simp
      · have cold2 := (emitRecords_restart ov em x y rest2 (fun e => hy e.symm)).trans ih.1
        constructor
        · rw [emitRecords_none_cons, closeOut, if_neg hy, splitRuns_cons,
            takeRun, if_neg hy, dropRun, if_neg hy, cold2]
          simp [blockRender]
        · intro p q qs heq hpq
          injection heq with hq hqs
          subst hq; subst hqs
          rw [emitRecords_some_cons_same ov em p x (y :: rest2) hpq,
            closeOut, if_neg hy, takeRun, if_neg hy, dropRun, if_neg hy, cold2]
          simp

theorem countChanges_splitRuns : ∀ (rest : List AnnotatedColumn) (t : String),
    countChanges t rest = (splitRuns (dropRun t rest)).length := by
  intro rest
  induction rest with
  | nil => intro t; simp [countChanges, dropRun]
  | cons x rest2 ih =>
    intro t
    by_cases h : x.table = t
    · rw [countChanges, dropRun, if_pos h, if_pos h, ← h, ih x.table]
      simp
    · rw [countChanges, dropRun, if_neg h, if_neg h, splitRuns_cons, ih x.table]
      simp [Nat.add_comm]

theorem splitRuns_length : ∀ cols : List AnnotatedColumn,
    (splitRuns cols).length = boundaryCount cols := by
  intro cols
  cases cols with
  | nil => simp [boundaryCount]
  | cons x rest =>
    rw [splitRuns_cons, boundaryCount, countChanges_splitRuns rest x.table]
    simp [Nat.add_comm]

/-! ## Claims -/

/-- C1, counterexample: with two schemas `a` and `b` both owning a
table `t`, the two consecutive rows differ in `(schema, table)` but
the emitter opens only one record declaration, while the number of
distinct `(schema, table)` pairs is two. -/
theorem claim1_counterexample :
    (emitRecords [] [] none [caA, caB]).countP (fun l => strStartsWith l "export type") = 1 ∧
    ([caA, caB].map (fun x => (x.schema, x.table))).dedup.length = 2 ∧
    ¬((emitRecords [] [] none [caA, caB]).countP (fun l => strStartsWith l "export type") =
       ([caA, caB].map (fun x => (x.schema, x.table))).dedup.length) := by
  decide

/-- C1 (amended): the record section is exactly the concatenation of
one complete block (open line, that run's field lines, close line) per
maximal contiguous run of equal `table` name - the boundary test
compares only the table name, not the `(schema, table)` pair - and the
number of opened record declarations equals the number of such runs,
one per position at which the table name differs from the previous
row's. -/
theorem claim1_theorem : ∀ (ov em : List (String × String)) (cols : List AnnotatedColumn),
    emitRecords ov em none cols = ((splitRuns cols).map (blockRender ov em)).flatten ∧
    (splitRuns cols).length = boundaryCount cols :=
  fun ov em cols => ⟨(emitRecords_grouped ov em cols).1, splitRuns_length cols⟩

/-- C2, counterexample: a column named `id` that is unique, primary
and a foreign key satisfies both branding conditions, yet the emitted
type carries only the self-brand tag and no foreign tag. -/
theorem claim2_counterexample :
    selfBranded cBoth = true ∧ foreignBrandEligible cBoth = true ∧
    fieldType [] [] cBoth = "number & \x7b _brand: \"User\" \x7d" ∧
    containsSub (fieldType [] [] cBoth) "__flavor" = false := by
  decide

/-- C2 (amended): self-branding applies iff the column is named `id`
and flagged unique or primary; foreign-branding applies iff the column
is NOT self-branded, is flagged foreign key and its name ends with
`id`.  The two brandings are mutually exclusive - self-branding takes
precedence - and the emitted type is always the base type followed by
at most one brand suffix followed by the nullable union. -/
theorem claim2_theorem : ∀ (ov em : List (String × String)) (x : AnnotatedColumn),
    fieldType ov em x = baseType em x ++ brandSuffix ov x ++ nullSuffix x ∧
    (selfBranded x && foreignBranded x) = false := by
  intro ov em x
  refine ⟨fieldType_decomposed ov em x, ?_⟩
  cases h : selfBranded x <;> simp [foreignBranded, h]

/-- C3, counterexample: the exclude partition keeps the literal entry
`"!auth"`; the leading `"!"` is never stripped. -/
theorem claim3_counterexample :
    (partitionSchemas ["public", "log", "!auth"]).2 = ["!auth"] ∧
    ¬(partitionSchemas ["public", "log", "!auth"]).2 = ["auth"] := by
  decide

/-- C3 (amended): entries are partitioned by whether they start with
`"!"`, but excluded entries keep the `"!"` prefix, so the example
yields include `[public, log]` and exclude `["!auth"]`.  A table from
schema `auth` or from any unlisted schema still never appears, because
the column query only accepts schemas in the include list. -/
theorem claim3_theorem :
    (∀ l : List String, partitionSchemas l =
      (l.filter (fun s => !strStartsWith s "!"), l.filter (fun s => strStartsWith s "!"))) ∧
    partitionSchemas ["public", "log", "!auth"] = (["public", "log"], ["!auth"]) ∧
    (∀ (inc exc excT : List String) (c : ColumnMeta),
      passesFilter inc exc excT c = true → c.schema ∈ inc) := by
  refine ⟨?_, by decide, ?_⟩
  · intro l
    unfold partitionSchemas
    rw [partitionSchemas_foldl]
    simp
  · intro inc exc excT c h
    simp only [passesFilter, Bool.and_eq_true, decide_eq_true_eq] at h
    exact h.1.1

/-- C3 witness: a `public` column passes the example filter and its
schema is in the include list. -/
theorem claim3_witness :
    passesFilter ["public", "log"] ["!auth"] [] cPub = true ∧
    cPub.schema ∈ (["public", "log"] : List String) :=
  ⟨by decide, claim3_theorem.2.2 ["public", "log"] ["!auth"] [] cPub (by decide)⟩

/-- C4, counterexample: a foreign-key column ending in `id` with
absent referenced-column metadata does not lose its branding; the
emitted type still carries a brand intersection, with the degenerate
tag name `Id`. -/
theorem claim4_counterexample :
    cNoRef.is_foreign_key = true ∧ strEndsWith cNoRef.column "id" = true ∧
    cNoRef.ref_schema = none ∧
    fieldType [] [] cNoRef = "number & \x7b __flavor?: \"Id\" \x7d" ∧
    ¬fieldType [] [] cNoRef = baseType [] cNoRef := by
  decide

/-- C4 (amended): for a foreign-key column ending in `id` with absent
referenced metadata (and not self-branded), the run still does not
fail - every emission function is total - but the foreign brand
intersection is emitted anyway, its referenced-table name degenerating
to the empty string and hence the tag name `Id`. -/
theorem claim4_theorem : ∀ (ov em : List (String × String)) (x : AnnotatedColumn),
    x.ref_schema = none → x.is_foreign_key = true → strEndsWith x.column "id" = true →
    selfBranded x = false →
    fieldType ov em x = baseType em x ++ " & \x7b __flavor?: \"Id\" \x7d" ++ nullSuffix x := by
  intro ov em x h0 h1 h2 h3
  rw [fieldType_decomposed]
  have hf : foreignBranded x = true := by
    simp [foreignBranded, foreignBrandEligible, h1, h2, h3]
  have hb : brandSuffix ov x = " & \x7b __flavor?: \"Id\" \x7d" := by
    rw [brandSuffix, if_neg (by simp [h3]), if_pos hf, foreignTag, h0]
    decide
  rw [hb]

/-- C4 witness: the amended statement evaluated at the concrete
no-referenced-metadata column. -/
theorem claim4_witness :
    cNoRef.ref_schema = none ∧ cNoRef.is_foreign_key = true ∧
    strEndsWith cNoRef.column "id" = true ∧ selfBranded cNoRef = false ∧
    fieldType [] [] cNoRef =
      baseType [] cNoRef ++ " & \x7b __flavor?: \"Id\" \x7d" ++ nullSuffix cNoRef :=
  ⟨rfl, rfl, by decide, by decide,
    claim4_theorem [] [] cNoRef rfl rfl (by decide) (by decide)⟩

/-- C5: `getType` maps every native type of the built-in table to
exactly the specified declaration type, narrows `json`/`jsonb` by the
default literal's opening token, and falls back for unknown native
types to the enum registry and then to `unknown`. -/
theorem claim5_theorem :
    (∀ (m : List (String × String)) (d : Option String), getType "bool" m d = "boolean") ∧
    (∀ u ∈ (["text", "citext", "money", "numeric", "int8", "char", "character", "bpchar",
        "varchar", "time", "tsquery", "tsvector", "uuid", "xml", "cidr", "inet",
        "macaddr"] : List String), ∀ m d, getType u m d = "string") ∧
    (∀ u ∈ (["smallint", "integer", "int", "int2", "int4", "real", "float", "float4",
        "float8"] : List String), ∀ m d, getType u m d = "number") ∧
    (∀ u ∈ (["date", "timestamp", "timestamptz"] : List String),
      ∀ m d, getType u m d = "Date") ∧
    (∀ (m : List (String × String)) (d : Option String), getType "bytea" m d = "Buffer") ∧
    (∀ (m : List (String × String)) (d : Option String),
      getType "interval" m d = "PostgresInterval") ∧
    (∀ u ∈ (["json", "jsonb"] : List String), ∀ (m : List (String × String)) (d : String),
      getType u m (some d) =
        (if strStartsWith d "\x27\x7b" then "Record<string, unknown>"
         else if strStartsWith d "\x27[" then "unknown[]" else "unknown") ∧
      getType u m none = "unknown") ∧
    (∀ (u : String) (m : List (String × String)) (d : Option String),
      u ∉ knownUdts → getType u m d = (jsGet m u).getD "unknown") := by
  refine ⟨fun m d => rfl, ?_, ?_, ?_, fun m d => rfl, fun m d => rfl, ?_, getType_default⟩
  · intro u hu m d
    fin_cases hu <;> rfl
  · intro u hu m d
    fin_cases hu <;> rfl
  · intro u hu m d
    fin_cases hu <;> rfl
  · intro u hu m d
    fin_cases hu <;> exact ⟨rfl, rfl⟩

/-- C5 witness: the table and the fallback evaluated at concrete
native type names, discharging the membership hypotheses. -/
theorem claim5_witness :
    (("text" : String) ∈ (["text", "citext", "money", "numeric", "int8", "char", "character",
        "bpchar", "varchar", "time", "tsquery", "tsvector", "uuid", "xml", "cidr", "inet",
        "macaddr"] : List String) ∧
      getType "text" [] none = "string") ∧
    (("mood" : String) ∉ knownUdts ∧
      getType "mood" [("mood", "Mood")] none = (jsGet [("mood", "Mood")] "mood").getD "unknown") :=
  ⟨⟨by decide, claim5_theorem.2.1 "text" (by decide) [] none⟩,
   ⟨by decide, claim5_theorem.2.2.2.2.2.2.2 "mood" [("mood", "Mood")] none (by decide)⟩⟩

/-- C6: the nullable union is applied last - a nullable column's field
type is exactly the field type it would have if non-nullable (array
wrapping and branding included) followed by `" | null"` - and the
nullable array-of-text scenario yields `string[] | null`. -/
theorem claim6_theorem :
    (∀ (ov em : List (String × String)) (x : AnnotatedColumn), x.nullable = true →
      fieldType ov em x = fieldType ov em { x with nullable := false } ++ " | null") ∧
    fieldType [] [] cArrText = "string[] | null" := by
  refine ⟨?_, by decide⟩
  intro ov em x h
  obtain ⟨sch, tab, col, nul, df, ty, ud, fk, un, pk, rs⟩ := x
  subst h
  rfl

/-- C6 witness: the nullable array-of-text column instantiates the
nullability rule. -/
theorem claim6_witness :
    cArrText.nullable = true ∧
    fieldType [] [] cArrText = fieldType [] [] { cArrText with nullable := false } ++ " | null" :=
  ⟨rfl, claim6_theorem.1 [] [] cArrText rfl⟩

/-- C7: on every exit path - whichever catalog queries fail - the
event trace contains exactly one `output.end()` and exactly one
`db.destroy()`. -/
theorem claim7_theorem : ∀ (cat : Catalog) (opts : Options),
    (updateTypes cat opts).1.countP isEndEv = 1 ∧
    (updateTypes cat opts).1.countP isDestroyEv = 1 := by
  intro cat opts
  have hEnd := countP_map_write isEndEv (fun s => rfl)
  have hDes := countP_map_write isDestroyEv (fun s => rfl)
  constructor <;>
    simp [updateTypes, List.countP_append, hEnd, hDes, List.countP_cons, isEndEv, isDestroyEv]

/-- C8: generation is deterministic - identical catalog snapshot and
identical options give identical traces (and identical outcome). -/
theorem claim8_theorem : ∀ (cat1 cat2 : Catalog) (opts1 opts2 : Options),
    cat1 = cat2 → opts1 = opts2 → updateTypes cat1 opts1 = updateTypes cat2 opts2 := by
  intro c1 c2 o1 o2 h1 h2
  rw [h1, h2]

/-- C8 witness: determinism instantiated at a concrete snapshot and
options. -/
theorem claim8_witness :
    updateTypes emptyCatalog defaultOptions = updateTypes emptyCatalog defaultOptions :=
  claim8_theorem emptyCatalog emptyCatalog defaultOptions defaultOptions rfl rfl

/-- C9, counterexample: for the scenario-C column, the emitted field
line uses the raw column name `author_id`; no camel-cased `authorId`
field appears anywhere in the line. -/
theorem claim9_counterexample :
    fieldLine [] [] cAuthor = "  author_id: number & \x7b __flavor?: \"UserId\" \x7d;\n" ∧
    containsSub (fieldLine [] [] cAuthor) "authorId" = false := by
  decide

/-- C9 (amended): the scenario-C column emits the field `author_id`
(the raw name, passed through the sanitizer without case conversion)
of type `number & \x7b __flavor?: "UserId" \x7d`, and the sanitizer
leaves a name unquoted exactly when it matches
`[A-Za-z$_][A-Za-z$_0-9]*`. -/
theorem claim9_theorem :
    fieldLine [] [] cAuthor = "  author_id: number & \x7b __flavor?: \"UserId\" \x7d;\n" ∧
    ∀ name : String, sanitize name = name ↔ validIdent name = true := by
  refine ⟨by decide, ?_⟩
  intro name
  constructor
  · intro h
    by_contra hv
    have hv' : validIdent name = false := by
      simpa using hv
    have hj : jsonStringify name = name := by
      simpa [sanitize, hv'] using h
    exact jsonStringify_ne_self name hj
  · intro h
    simp [sanitize, h]

/-- C10: every run's trace starts with the two banner lines - also
aborting runs, since the banner is written before the protected
region - and when a header text is configured it follows immediately
after the banner. -/
theorem claim10_theorem : ∀ (cat : Catalog) (opts : Options),
    (updateTypes cat opts).1.take 2 =
      [Ev.write "// The TypeScript definitions below are automatically generated.\n",
       Ev.write "// Do not touch them, or risk, your modifications being lost.\n\n"] ∧
    ∀ p : String, opts.headerText = some p → ¬p = "" →
      (updateTypes cat opts).1.take 4 =
        [Ev.write "// The TypeScript definitions below are automatically generated.\n",
         Ev.write "// Do not touch them, or risk, your modifications being lost.\n\n",
         Ev.write p, Ev.write "\n\n"] := by
  intro cat opts
  constructor
  · rfl
  · intro p hp hne
    simp only [updateTypes, hp, headerOut, if_neg hne]
    rfl

/-- C10 witness: the header conjunct evaluated at concrete options
carrying a header text. -/
theorem claim10_witness :
    headerOptions.headerText = some "import x;" ∧ ¬("import x;" = "") ∧
    (updateTypes emptyCatalog headerOptions).1.take 4 =
      [Ev.write "// The TypeScript definitions below are automatically generated.\n",
       Ev.write "// Do not touch them, or risk, your modifications being lost.\n\n",
       Ev.write "import x;", Ev.write "\n\n"] :=
  ⟨rfl, by decide,
    (claim10_theorem emptyCatalog headerOptions).2 "import x;" rfl (by decide)⟩

end KnexTypes
